import Mathlib

/-!
# Verification of the aiTradeReports parsing and normalization pipeline

Shallow embedding of the trade-import core of the `aiTradeReports`
repository (`src/parsers/*.py`, `src/models/trade.py`,
`backend/app/services/trade_service.py`) together with theorems that
settle the frozen specification claims C1..C10.

Modelling conventions:

* Python `Decimal` / monetary floats are embedded as `ℚ` (exact
  arithmetic; the source performs its monetary arithmetic with
  `decimal.Decimal`, whose additions and multiplications are exact and
  whose divisions agree with `ℚ` on every value occurring in the
  concrete inputs used below).
* `datetime` values are embedded as `Int` timestamps (seconds);
  ordering, subtraction and minute-flooring are the only operations the
  embedded code performs on them.
* A pandas cell that may be `NaN` is embedded as an `Option` value;
  `none` plays the role of `NaN` (`pd.isna`).
* Row parsers that `raise ValueError` are embedded in `Except String`;
  `return None` ("skip this row") is `Except.ok none`.
* The cell-level string parsers `_parse_decimal` / `_parse_datetime`
  are embedded twice: once faithfully at string level
  (`parseDecimalStr`, used for claim C8 about the decimal grammar) and
  once at value level (`parseDecimalQ`, `parseDatetimeQ`) for the row
  parsers, whose claims are about post-lexing logic.
-/

deriving instance DecidableEq for Except

namespace AiTrade

section RatComputable

/- Core marks `Rat.add`/`Rat.mul`/`Rat.inv`/`Rat.sub` irreducible,
which blocks `decide` on concrete rational arithmetic; restore
definitional unfolding locally for this development. -/
attribute [local semireducible] Rat.add Rat.mul Rat.inv Rat.sub

/-! ## Python string helpers -/

/-- Python `str.strip()` on a list of characters: drop whitespace from
both ends. -/
def pyStripL (cs : List Char) : List Char :=
  ((cs.dropWhile Char.isWhitespace).reverse.dropWhile Char.isWhitespace).reverse

/-- Python `str.strip()` at `String` level. -/
def pyStrip (s : String) : String :=
  String.mk (pyStripL s.toList)

/-- Python `str.lower()` (ASCII case folding, which is all the source
ever feeds it). -/
def pyLower (s : String) : String :=
  String.mk (s.toList.map Char.toLower)

/-- Python `str.upper()`. -/
def pyUpper (s : String) : String :=
  String.mk (s.toList.map Char.toUpper)

/-- Python `needle in hay` substring test on characters lists. -/
def infixOfL (needle : List Char) : List Char → Bool
  | [] => needle.isEmpty
  | c :: rest => needle.isPrefixOf (c :: rest) || infixOfL needle rest

/-- Python `needle in hay` at `String` level. -/
def infixOfS (needle hay : String) : Bool :=
  infixOfL needle.toList hay.toList

/-! ## Direction normalization (`BaseParser._parse_direction`,
`src/parsers/base.py` lines 368-383) -/

inductive TradeDirection where
  | long
  | short
deriving DecidableEq, Repr

/-- The long keyword list of `_parse_direction` (base.py line 375),
in source order. -/
def longKeywords : List String := ["buy", "long", "b", "1", "call"]

/-- The short keyword list of `_parse_direction` (base.py line 376),
in source order. -/
def shortKeywords : List String := ["sell", "short", "s", "-1", "put", "ss"]

/-- `BaseParser._parse_direction` (base.py lines 368-383): `none` is a
`NaN` cell.  The long keyword list is tested first, each keyword as a
case-insensitive substring of the stripped, lowered input. -/
def parseDirection (value : Option String) : Except String TradeDirection :=
  match value with
  | none => .error "Empty direction value"
  | some s =>
    let vstr := pyLower (pyStrip s)
    if longKeywords.any (fun kw => infixOfS kw vstr) then
      .ok .long
    else if shortKeywords.any (fun kw => infixOfS kw vstr) then
      .ok .short
    else
      .error ("Unknown direction: " ++ s)

/-! ## Decimal parsing (`BaseParser._parse_decimal`,
`src/parsers/base.py` lines 352-366)

The source strips the cell, removes every `,` and `$`, and hands the
rest to Python `float()`.  We embed `float()`'s literal grammar as a
deterministic automaton (`fsDelta` / `floatRun`): optional surrounding
whitespace, an optional sign, then either a decimal literal with
optional fraction and exponent or one of the keywords
`inf`/`infinity`/`nan` (case-insensitive).  Numeric-separator
underscores, which CPython also accepts, are not modelled; no claim
depends on them. -/

/-- Result of Python `float()`: a finite value or one of the special
values. -/
inductive PyVal where
  | fin (q : ℚ)
  | inf
  | ninf
  | nan
deriving DecidableEq, Repr

/-- States of the `float()` literal automaton. -/
inductive FS where
  | start | signed | intg | dot0 | frac | expS | expSign | expD
  | i1 | i2 | inf3 | inf4 | inf5 | inf6 | inf7 | infy
  | n1 | n2 | nan3
  | trail | dead
deriving DecidableEq, Repr

/-- Transition function of the `float()` literal automaton. -/
def fsDelta (st : FS) (c : Char) : FS :=
  let lc := c.toLower
  match st with
  | .start =>
    if c.isWhitespace then .start
    else if c = '+' || c = '-' then .signed
    else if c.isDigit then .intg
    else if c = '.' then .dot0
    else if lc = 'i' then .i1
    else if lc = 'n' then .n1
    else .dead
  | .signed =>
    if c.isDigit then .intg
    else if c = '.' then .dot0
    else if lc = 'i' then .i1
    else if lc = 'n' then .n1
    else .dead
  | .intg =>
    if c.isDigit then .intg
    else if c = '.' then .frac
    else if lc = 'e' then .expS
    else if c.isWhitespace then .trail
    else .dead
  | .dot0 => if c.isDigit then .frac else .dead
  | .frac =>
    if c.isDigit then .frac
    else if lc = 'e' then .expS
    else if c.isWhitespace then .trail
    else .dead
  | .expS =>
    if c.isDigit then .expD
    else if c = '+' || c = '-' then .expSign
    else .dead
  | .expSign => if c.isDigit then .expD else .dead
  | .expD =>
    if c.isDigit then .expD
    else if c.isWhitespace then .trail
    else .dead
  | .i1 => if lc = 'n' then .i2 else .dead
  | .i2 => if lc = 'f' then .inf3 else .dead
  | .inf3 =>
    if lc = 'i' then .inf4
    else if c.isWhitespace then .trail
    else .dead
  | .inf4 => if lc = 'n' then .inf5 else .dead
  | .inf5 => if lc = 'i' then .inf6 else .dead
  | .inf6 => if lc = 't' then .inf7 else .dead
  | .inf7 => if lc = 'y' then .infy else .dead
  | .infy => if c.isWhitespace then .trail else .dead
  | .n1 => if lc = 'a' then .n2 else .dead
  | .n2 => if lc = 'n' then .nan3 else .dead
  | .nan3 => if c.isWhitespace then .trail else .dead
  | .trail => if c.isWhitespace then .trail else .dead
  | .dead => .dead

/-- Accepting states of the `float()` automaton. -/
def fsAccept : FS → Bool
  | .intg | .frac | .expD | .inf3 | .infy | .nan3 | .trail => true
  | _ => false

/-- Run the `float()` automaton. -/
def floatRun (st : FS) : List Char → Bool
  | [] => fsAccept st
  | c :: cs => floatRun (fsDelta st c) cs

/-- Numeric value of a digit string (most significant first). -/
def digitsVal (cs : List Char) : ℕ :=
  cs.foldl (fun n c => n * 10 + (c.toNat - 48)) 0

/-- Value of the exponent part (sign and digits). -/
def expVal (cs : List Char) : ℤ :=
  match cs with
  | '+' :: r => (digitsVal r : ℤ)
  | '-' :: r => -(digitsVal r : ℤ)
  | r => (digitsVal r : ℤ)

/-- Value of a valid, already-stripped `float()` literal.  Only the
behaviour on strings accepted by `floatRun` matters. -/
def floatValOf (cs : List Char) : PyVal :=
  let (neg, r) :=
    match cs with
    | '+' :: r => (false, r)
    | '-' :: r => (true, r)
    | r => (false, r)
  match r with
  | [] => .fin 0
  | c :: _ =>
    if c.toLower = 'i' then (if neg then .ninf else .inf)
    else if c.toLower = 'n' then .nan
    else
      let mant := r.takeWhile (fun c => c.toLower ≠ 'e')
      let erest := r.dropWhile (fun c => c.toLower ≠ 'e')
      let e : ℤ := match erest with
        | [] => 0
        | _ :: es => expVal es
      let ip := mant.takeWhile (fun c => c ≠ '.')
      let fprest := mant.dropWhile (fun c => c ≠ '.')
      let fp := match fprest with
        | [] => []
        | _ :: fs => fs
      let m : ℚ := (digitsVal ip : ℚ) + (digitsVal fp : ℚ) / ((10 ^ fp.length : ℕ) : ℚ)
      let scale : ℚ :=
        if 0 ≤ e then ((10 ^ e.toNat : ℕ) : ℚ) else 1 / ((10 ^ (-e).toNat : ℕ) : ℚ)
      .fin ((if neg then -m else m) * scale)

/-- Python `float(s)` on a character list. -/
def pyFloatL (cs : List Char) : Option PyVal :=
  if floatRun .start cs then some (floatValOf (pyStripL cs)) else none

/-- Whether a `float()` result is negative (`result < 0` in the
source check for `allow_negative`). -/
def pyValNeg : PyVal → Bool
  | .fin q => q < 0
  | .ninf => true
  | _ => false

/-- `BaseParser._parse_decimal` (base.py lines 352-366) on a string
cell: strip, remove every `,` and `$`, call `float()`.  A negative
value under `allow_negative=False` raises inside the same `try`, so
the surfaced error is the `Invalid number` one. -/
def parseDecimalStr (value : String) (allowNeg : Bool := true) : Except String PyVal :=
  match pyFloatL ((pyStripL value.toList).filter (fun c => c ≠ ',' && c ≠ '$')) with
  | some v =>
    if !allowNeg && pyValNeg v then .error ("Invalid number: " ++ value)
    else .ok v
  | none => .error ("Invalid number: " ++ value)

/-! ### The automaton rejects every string containing `'('` -/

theorem fsDelta_dead (c : Char) : fsDelta .dead c = .dead := rfl

theorem floatRun_dead (cs : List Char) : floatRun .dead cs = false := by
  induction cs with
  | nil => rfl
  | cons c cs ih => simpa [floatRun, fsDelta_dead] using ih

theorem fsDelta_paren (st : FS) : fsDelta st '(' = .dead := by
  cases st <;> decide

theorem floatRun_paren (cs : List Char) (st : FS) (h : '(' ∈ cs) :
    floatRun st cs = false := by
  induction cs generalizing st with
  | nil => cases h
  | cons c cs ih =>
    rcases List.mem_cons.mp h with h | h
    · subst h
      simpa [floatRun, fsDelta_paren] using floatRun_dead cs
    · simpa [floatRun] using ih (fsDelta st c) h

theorem mem_dropWhile {c : Char} {p : Char → Bool} :
    ∀ {cs : List Char}, c ∈ cs → p c = false → c ∈ cs.dropWhile p
  | x :: xs, h, hp => by
    by_cases hx : p x = true
    · rcases List.mem_cons.mp h with rfl | h
      · exact absurd hx (by simp [hp])
      · simpa [List.dropWhile, hx] using mem_dropWhile h hp
    · simpa [List.dropWhile, hx] using h

theorem mem_pyStripL {c : Char} {cs : List Char} (h : c ∈ cs)
    (hw : c.isWhitespace = false) : c ∈ pyStripL cs := by
  unfold pyStripL
  refine List.mem_reverse.mpr (mem_dropWhile (List.mem_reverse.mpr ?_) hw)
  exact mem_dropWhile h hw

theorem parseDecimalStr_paren (s : String) (allowNeg : Bool) :
    parseDecimalStr ("(" ++ s ++ ")") allowNeg =
      .error ("Invalid number: " ++ ("(" ++ s ++ ")")) := by
  have hmem : '(' ∈ ("(" ++ s ++ ")").toList := by
    simp [String.toList]
  have hmem2 : '(' ∈ (pyStripL ("(" ++ s ++ ")").toList).filter
      (fun c => c ≠ ',' && c ≠ '$') := by
    refine List.mem_filter.mpr ⟨mem_pyStripL hmem (by decide), by decide⟩
  have key : pyFloatL ((pyStripL ("(" ++ s ++ ")").toList).filter
      (fun c => c ≠ ',' && c ≠ '$')) = none := by
    unfold pyFloatL
    rw [floatRun_paren _ _ hmem2]
    rfl
  unfold parseDecimalStr
  rw [key]

/-! ## Canonical data model (`src/models/trade.py`)

`Trade` is a pydantic model; we keep the fields the claims are about.
`entry_price`, `exit_price` and `quantity` carry pydantic `gt=0`
constraints and `symbol` a `min_length=1` constraint, all checked at
construction; the `symbol` validator then strips and uppercases.
`mkTrade` embeds this validating constructor: `none` is a pydantic
`ValidationError` (a `ValueError` subclass, hence caught by the row
loop of `_parse_dataframe`). -/

inductive TradeStatus where
  | sOpen
  | sClosed
  | sPart
deriving DecidableEq, Repr

structure Trade where
  symbol : String
  direction : TradeDirection
  status : TradeStatus
  entry_time : Int
  exit_time : Option Int
  entry_price : ℚ
  exit_price : Option ℚ
  quantity : ℚ
  commission : ℚ
  override_pnl : Option ℚ := none
deriving DecidableEq, Repr

/-- The validating `Trade(...)` constructor (trade.py lines 64-122):
`gt=0` on `entry_price`, `exit_price`, `quantity`, `min_length=1` on
the raw symbol, then the symbol validator strips and uppercases. -/
def mkTrade (symbol : String) (direction : TradeDirection)
    (status : TradeStatus) (entry_time : Int) (exit_time : Option Int)
    (entry_price : ℚ) (exit_price : Option ℚ) (quantity : ℚ)
    (commission : ℚ) : Option Trade :=
  if symbol.length ≥ 1 ∧ 0 < entry_price ∧ 0 < quantity ∧
      (∀ p ∈ exit_price, 0 < p) then
    some { symbol := pyUpper (pyStrip symbol), direction := direction,
           status := status, entry_time := entry_time,
           exit_time := exit_time, entry_price := entry_price,
           exit_price := exit_price, quantity := quantity,
           commission := commission }
  else
    none

/-- The `gt=0` bounds every constructed trade satisfies (claim C10's
data-model invariant). -/
def validTrade (t : Trade) : Prop :=
  0 < t.entry_price ∧ 0 < t.quantity ∧ ∀ p ∈ t.exit_price, 0 < p

theorem mkTrade_valid {s d st et xt ep xp q c t}
    (h : mkTrade s d st et xt ep xp q c = some t) : validTrade t := by
  unfold mkTrade at h
  split at h
  · rename_i hc
    cases h
    exact ⟨hc.2.1, hc.2.2.1, hc.2.2.2⟩
  · cases h

/-! ## Parser result and the shared row loop
(`BaseParser._parse_dataframe`, `src/parsers/base.py` lines 188-251)

The loop is generic in the row type and in the broker's `_parse_row`;
`Except.ok none` is `parse_row` returning `None` (row skipped),
`Except.error` is a raised `ValueError` (or any exception), both
caught by the loop and recorded. -/

structure ParserError where
  row_number : ℕ
  message : String
deriving DecidableEq, Repr

structure ParserResult where
  trades : List Trade
  errors : List ParserError
  warnings : List String
  total_rows : ℕ
  parsed_successfully : ℕ
  skipped_rows : ℕ
deriving DecidableEq, Repr

/-- Accumulator of the row loop. -/
structure RowAcc where
  trades : List Trade
  errors : List ParserError
  parsed : ℕ
  skipped : ℕ
deriving DecidableEq, Repr

/-- The row loop of `_parse_dataframe` (base.py lines 223-246): skip
empty rows, append parsed trades, record raised errors under the
1-based row number (`idx + 2`, header counted). -/
def processRows {Row : Type} (parseRow : Row → ℕ → Except String (Option Trade))
    (isEmptyRow : Row → Bool) : ℕ → List Row → RowAcc
  | _, [] => ⟨[], [], 0, 0⟩
  | rowNum, r :: rs =>
    let acc := processRows parseRow isEmptyRow (rowNum + 1) rs
    if isEmptyRow r then
      { acc with skipped := acc.skipped + 1 }
    else
      match parseRow r rowNum with
      | .ok (some t) => { acc with trades := t :: acc.trades, parsed := acc.parsed + 1 }
      | .ok none => { acc with skipped := acc.skipped + 1 }
      | .error msg => { acc with errors := ⟨rowNum, msg⟩ :: acc.errors }

/-- Sort key of the final `result.trades.trades.sort(key=lambda t:
t.entry_time)` (base.py line 249). -/
def entryLE (a b : Trade) : Prop :=
  a.entry_time ≤ b.entry_time

instance : DecidableRel entryLE := fun _ _ => Int.decLe _ _

instance : IsTotal Trade entryLE := ⟨fun _ _ => Int.le_total _ _⟩

instance : IsTrans Trade entryLE := ⟨fun _ _ _ => Int.le_trans⟩

/-- Python `list.sort` is a stable sort; `insertionSort` by the same
key is stable as well, and any two stable sorts of a list by the same
key coincide. -/
def sortByEntryTime (ts : List Trade) : List Trade :=
  List.insertionSort entryLE ts

/-- `BaseParser._parse_dataframe` (base.py lines 188-251): fail the
whole file on missing required columns (a single `row_number = 0`
error), otherwise normalize, run the row loop and sort the trades by
`entry_time`.  `total_rows = len(df)` is recorded before
normalization. -/
def parseDataframe {Row : Type} (parseRow : Row → ℕ → Except String (Option Trade))
    (isEmptyRow : Row → Bool) (missingCols : List String)
    (normalize : List Row → List Row) (rows : List Row) : ParserResult :=
  if missingCols.isEmpty then
    let acc := processRows parseRow isEmptyRow 2 (normalize rows)
    { trades := sortByEntryTime acc.trades, errors := acc.errors,
      warnings := [], total_rows := rows.length,
      parsed_successfully := acc.parsed, skipped_rows := acc.skipped }
  else
    { trades := [],
      errors := [⟨0, "Missing required columns: " ++ String.intercalate ", " missingCols⟩],
      warnings := [], total_rows := rows.length,
      parsed_successfully := 0, skipped_rows := 0 }

/-! ### Row-loop invariants -/

theorem processRows_count {Row : Type}
    (parseRow : Row → ℕ → Except String (Option Trade)) (isEmptyRow : Row → Bool) :
    ∀ (n : ℕ) (rows : List Row),
      (processRows parseRow isEmptyRow n rows).parsed +
        (processRows parseRow isEmptyRow n rows).skipped +
        (processRows parseRow isEmptyRow n rows).errors.length = rows.length := by
  intro n rows
  induction rows generalizing n with
  | nil => rfl
  | cons r rs ih =>
    have h := ih (n + 1)
    unfold processRows
    by_cases he : isEmptyRow r
    · simp [he]
      omega
    · rcases hp : parseRow r n with msg | t
      · simp [he, hp]
        omega
      · rcases t with _ | t
        · simp [he, hp]
          omega
        · simp [he, hp]
          omega

theorem processRows_errors_ge {Row : Type}
    (parseRow : Row → ℕ → Except String (Option Trade)) (isEmptyRow : Row → Bool) :
    ∀ (n : ℕ) (rows : List Row),
      ∀ e ∈ (processRows parseRow isEmptyRow n rows).errors, n ≤ e.row_number := by
  intro n rows
  induction rows generalizing n with
  | nil => intro e he; cases he
  | cons r rs ih =>
    intro e he
    unfold processRows at he
    by_cases hem : isEmptyRow r
    · simp only [hem, if_pos] at he
      exact Nat.le_of_succ_le (ih (n + 1) e he)
    · simp only [hem, if_neg, Bool.false_eq_true, not_false_eq_true] at he
      rcases hp : parseRow r n with msg | t
      · rw [hp] at he
        simp only [List.mem_cons] at he
        rcases he with rfl | he
        · exact Nat.le_refl n
        · exact Nat.le_of_succ_le (ih (n + 1) e he)
      · rw [hp] at he
        rcases t with _ | t <;> exact Nat.le_of_succ_le (ih (n + 1) e he)

theorem processRows_trades_sound {Row : Type}
    (parseRow : Row → ℕ → Except String (Option Trade)) (isEmptyRow : Row → Bool)
    (P : Trade → Prop)
    (hP : ∀ (r : Row) (n : ℕ) (t : Trade), parseRow r n = .ok (some t) → P t) :
    ∀ (n : ℕ) (rows : List Row),
      ∀ t ∈ (processRows parseRow isEmptyRow n rows).trades, P t := by
  intro n rows
  induction rows generalizing n with
  | nil => intro t ht; cases ht
  | cons r rs ih =>
    intro t ht
    unfold processRows at ht
    by_cases hem : isEmptyRow r
    · simp only [hem, if_pos] at ht
      exact ih (n + 1) t ht
    · simp only [hem, if_neg, Bool.false_eq_true, not_false_eq_true] at ht
      rcases hp : parseRow r n with msg | tr
      · rw [hp] at ht
        exact ih (n + 1) t ht
      · rw [hp] at ht
        rcases tr with _ | tr
        · exact ih (n + 1) t ht
        · simp only [List.mem_cons] at ht
          rcases ht with rfl | ht
          · exact hP r n t hp
          · exact ih (n + 1) t ht

theorem mem_sortByEntryTime {t : Trade} {ts : List Trade} :
    t ∈ sortByEntryTime ts ↔ t ∈ ts :=
  (List.perm_insertionSort entryLE ts).mem_iff

theorem parseDataframe_trades_sound {Row : Type}
    (parseRow : Row → ℕ → Except String (Option Trade)) (isEmptyRow : Row → Bool)
    (missingCols : List String) (normalize : List Row → List Row) (rows : List Row)
    (P : Trade → Prop)
    (hP : ∀ (r : Row) (n : ℕ) (t : Trade), parseRow r n = .ok (some t) → P t) :
    ∀ t ∈ (parseDataframe parseRow isEmptyRow missingCols normalize rows).trades, P t := by
  intro t ht
  unfold parseDataframe at ht
  split at ht
  · exact processRows_trades_sound parseRow isEmptyRow P hP 2 (normalize rows) t
      (mem_sortByEntryTime.mp ht)
  · cases ht

/-! ## Claim C2 (sort invariant) -/

/-- **C2, amended (provable part).** Every parse that goes through
the shared `BaseParser._parse_dataframe` pipeline — any row parser,
any emptiness test, any normalization, any input — returns its trades
sorted by `entry_time` ascending (the final
`result.trades.trades.sort(key=lambda t: t.entry_time)` at base.py
line 249).  The Tradovate Order History path does not share this
property; see the counterexample. -/
theorem C2_pipeline_sorted {Row : Type}
    (parseRow : Row → ℕ → Except String (Option Trade)) (isEmptyRow : Row → Bool)
    (missingCols : List String) (normalize : List Row → List Row) (rows : List Row) :
    List.Sorted entryLE
      (parseDataframe parseRow isEmptyRow missingCols normalize rows).trades := by
  unfold parseDataframe
  split
  · exact List.sorted_insertionSort entryLE _
  · simp

/-! ## Claim C3 (counter identity) -/

/-- **C3, amended (provable part).** For every parse through the
shared `BaseParser._parse_dataframe` row loop whose required-columns
check passes and whose `_normalize_dataframe` preserves the number of
rows, `parsed_successfully + skipped_rows + |errors with row_number >
0| = total_rows`: the loop touches every row exactly once and each
row lands in exactly one bucket.  The Tradovate Order History path
does not satisfy the identity; see the counterexample. -/
theorem C3_pipeline_counter_identity {Row : Type}
    (parseRow : Row → ℕ → Except String (Option Trade)) (isEmptyRow : Row → Bool)
    (normalize : List Row → List Row) (rows : List Row)
    (hn : (normalize rows).length = rows.length) :
    (parseDataframe parseRow isEmptyRow [] normalize rows).parsed_successfully +
      (parseDataframe parseRow isEmptyRow [] normalize rows).skipped_rows +
      ((parseDataframe parseRow isEmptyRow [] normalize rows).errors.filter
        (fun e => 0 < e.row_number)).length =
      (parseDataframe parseRow isEmptyRow [] normalize rows).total_rows := by
  have hfil : ((processRows parseRow isEmptyRow 2 (normalize rows)).errors.filter
      (fun e => 0 < e.row_number)) =
      (processRows parseRow isEmptyRow 2 (normalize rows)).errors := by
    refine List.filter_eq_self.mpr ?_
    intro e he
    have := processRows_errors_ge parseRow isEmptyRow 2 (normalize rows) e he
    simpa using Nat.lt_of_lt_of_le (by norm_num) this
  unfold parseDataframe
  simp only [List.isEmpty_nil, if_pos]
  rw [hfil, ← hn]
  exact processRows_count parseRow isEmptyRow 2 (normalize rows)

/-- **C3, witness.** The amended identity applied to a concrete
two-row parse in which every row is skipped. -/
theorem C3_pipeline_counter_identity_witness :
    (id [(), ()] : List Unit).length = [(), ()].length ∧
      (parseDataframe (fun (_ : Unit) (_ : ℕ) => Except.ok none)
          (fun _ => false) [] id [(), ()]).parsed_successfully +
        (parseDataframe (fun (_ : Unit) (_ : ℕ) => Except.ok none)
          (fun _ => false) [] id [(), ()]).skipped_rows +
        ((parseDataframe (fun (_ : Unit) (_ : ℕ) => Except.ok none)
          (fun _ => false) [] id [(), ()]).errors.filter
            (fun e => 0 < e.row_number)).length =
        (parseDataframe (fun (_ : Unit) (_ : ℕ) => Except.ok none)
          (fun _ => false) [] id [(), ()]).total_rows :=
  ⟨rfl, C3_pipeline_counter_identity _ _ id [(), ()] rfl⟩

/-! ## Derived P&L and the profit factor
(`src/models/trade.py` lines 124-152 and 315-336,
`backend/app/services/trade_service.py` lines 183-202) -/

/-- `Trade.pnl_gross` (trade.py lines 124-144): `override_pnl` if
set, else `(exit − entry) · qty` for long / `(entry − exit) · qty`
for short, undefined while open. -/
def pnl_gross (t : Trade) : Option ℚ :=
  match t.override_pnl with
  | some q => some q
  | none =>
    match t.exit_price with
    | none => none
    | some xp =>
      match t.direction with
      | .long => some ((xp - t.entry_price) * t.quantity)
      | .short => some ((t.entry_price - xp) * t.quantity)

/-- `Trade.pnl_net` (trade.py lines 146-152). -/
def pnl_net (t : Trade) : Option ℚ :=
  (pnl_gross t).map (fun q => q - t.commission)

/-- Python truthiness test `t.pnl_net and t.pnl_net > 0`
(trade.py line 326). -/
def pnlPos (t : Trade) : Bool :=
  match pnl_net t with
  | some q => q ≠ 0 && 0 < q
  | none => false

/-- Python truthiness test `t.pnl_net and t.pnl_net < 0`
(trade.py line 330). -/
def pnlNeg (t : Trade) : Bool :=
  match pnl_net t with
  | some q => q ≠ 0 && q < 0
  | none => false

/-- The local `gross_profit` of `TradeCollection.profit_factor`
(trade.py lines 324-327). -/
def pfGrossProfit (ts : List Trade) : ℚ :=
  ((ts.filter pnlPos).filterMap pnl_net).sum

/-- The local `gross_loss` of `TradeCollection.profit_factor`
(trade.py lines 328-331). -/
def pfGrossLoss (ts : List Trade) : ℚ :=
  |((ts.filter pnlNeg).filterMap pnl_net).sum|

/-- Result of `TradeCollection.profit_factor`: `None`, `float("inf")`
or a finite quotient. -/
inductive ProfitFactor where
  | undef
  | infinite
  | val (q : ℚ)
deriving DecidableEq, Repr

/-- `TradeCollection.profit_factor` (trade.py lines 315-336): when
`gross_loss == 0` it returns `None` only if `gross_profit == 0`,
otherwise `float("inf")`. -/
def profit_factor (ts : List Trade) : ProfitFactor :=
  if pfGrossLoss ts = 0 then
    if pfGrossProfit ts = 0 then .undef else .infinite
  else
    .val (pfGrossProfit ts / pfGrossLoss ts)

/-- Winner test of the statistics service (`trade_service.py` line
188): a *closed* trade with truthy positive `pnl_net`. -/
def svcWinner (t : Trade) : Bool :=
  t.status = TradeStatus.sClosed && pnlPos t

/-- Loser test of the statistics service (`trade_service.py` line
189). -/
def svcLoser (t : Trade) : Bool :=
  t.status = TradeStatus.sClosed && pnlNeg t

/-- `gross_profit` of `TradeService.get_statistics`
(trade_service.py line 194). -/
def svcGrossProfit (ts : List Trade) : ℚ :=
  ((ts.filter svcWinner).filterMap pnl_net).sum

/-- `gross_loss` of `TradeService.get_statistics`
(trade_service.py line 195). -/
def svcGrossLoss (ts : List Trade) : ℚ :=
  if (ts.filter svcLoser).isEmpty then 0
  else |((ts.filter svcLoser).filterMap pnl_net).sum|

/-- `profit_factor` of `TradeService.get_statistics`
(trade_service.py lines 200-202): `None` whenever
`gross_loss ≤ 0`. -/
def svcProfitFactor (ts : List Trade) : Option ℚ :=
  if 0 < svcGrossLoss ts then some (svcGrossProfit ts / svcGrossLoss ts)
  else none

/-- Spec-side winner predicate: `pnl_net` defined and `> 0`
(`is_winner` of the data model). -/
def isWinnerPos (t : Trade) : Bool :=
  match pnl_net t with
  | some q => 0 < q
  | none => false

/-- Spec-side loser predicate: `pnl_net` defined and `< 0`. -/
def isLoserNeg (t : Trade) : Bool :=
  match pnl_net t with
  | some q => q < 0
  | none => false

/-- Spec-side `gross_profit`: sum of net P&L over the winners. -/
def specGrossProfit (ts : List Trade) : ℚ :=
  ((ts.filter isWinnerPos).filterMap pnl_net).sum

/-- Spec-side `gross_loss`: absolute sum of net P&L over the
losers. -/
def specGrossLoss (ts : List Trade) : ℚ :=
  |((ts.filter isLoserNeg).filterMap pnl_net).sum|

theorem pnlPos_eq_isWinnerPos (t : Trade) : pnlPos t = isWinnerPos t := by
  unfold pnlPos isWinnerPos
  rcases pnl_net t with _ | q
  · rfl
  · by_cases h : 0 < q
    · simp [h, ne_of_gt h]
    · simp [h]

theorem pnlNeg_eq_isLoserNeg (t : Trade) : pnlNeg t = isLoserNeg t := by
  unfold pnlNeg isLoserNeg
  rcases pnl_net t with _ | q
  · rfl
  · by_cases h : q < 0
    · simp [h, ne_of_lt h]
    · simp [h]

theorem pfGrossProfit_eq_spec (ts : List Trade) :
    pfGrossProfit ts = specGrossProfit ts := by
  unfold pfGrossProfit specGrossProfit
  have : ts.filter pnlPos = ts.filter isWinnerPos :=
    List.filter_congr (fun t _ => pnlPos_eq_isWinnerPos t)
  rw [this]

theorem pfGrossLoss_eq_spec (ts : List Trade) :
    pfGrossLoss ts = specGrossLoss ts := by
  unfold pfGrossLoss specGrossLoss
  have : ts.filter pnlNeg = ts.filter isLoserNeg :=
    List.filter_congr (fun t _ => pnlNeg_eq_isLoserNeg t)
  rw [this]

/-! ## Claim C9 (profit factor) -/

/-- A closed long trade, entry `100`, exit `110`, quantity `1`: a pure
winner (net P&L `10`). -/
def c9winner : Trade :=
  { symbol := "AAPL", direction := .long, status := .sClosed,
    entry_time := 0, exit_time := some 60, entry_price := 100,
    exit_price := some 110, quantity := 1, commission := 0 }

/-- **C9, counterexample.** The claim asserts the computed
profit factor is undefined (no value) *whenever* `gross_loss = 0`.
On a collection with one winner and no losers, `gross_loss = 0` but
`TradeCollection.profit_factor` returns `float("inf")`, not
`None`. -/
theorem C9_gross_loss_zero_not_undef :
    pfGrossLoss [c9winner] = 0 ∧
      profit_factor [c9winner] = ProfitFactor.infinite ∧
      profit_factor [c9winner] ≠ ProfitFactor.undef := by
  refine ⟨by decide, by decide, by decide⟩

/-- **C9, amended.** `TradeCollection.profit_factor` equals
`gross_profit / gross_loss` whenever `gross_loss ≠ 0`; when
`gross_loss = 0` it is `None` only if additionally
`gross_profit = 0`, and `float("inf")` otherwise.  The service-level
statistics (`TradeService.get_statistics`) do return no value
whenever their `gross_loss` is `0`. -/
theorem C9_profit_factor_characterization (ts : List Trade) :
    (specGrossLoss ts ≠ 0 →
      profit_factor ts = ProfitFactor.val (specGrossProfit ts / specGrossLoss ts)) ∧
    (specGrossLoss ts = 0 → specGrossProfit ts = 0 →
      profit_factor ts = ProfitFactor.undef) ∧
    (specGrossLoss ts = 0 → specGrossProfit ts ≠ 0 →
      profit_factor ts = ProfitFactor.infinite) ∧
    (svcGrossLoss ts = 0 → svcProfitFactor ts = none) := by
  refine ⟨?_, ?_, ?_, ?_⟩
  · intro h
    unfold profit_factor
    rw [pfGrossLoss_eq_spec, pfGrossProfit_eq_spec, if_neg h]
  · intro h h'
    unfold profit_factor
    rw [pfGrossLoss_eq_spec, pfGrossProfit_eq_spec, if_pos h, if_pos h']
  · intro h h'
    unfold profit_factor
    rw [pfGrossLoss_eq_spec, pfGrossProfit_eq_spec, if_pos h, if_neg h']
  · intro h
    unfold svcProfitFactor
    rw [h]
    simp

/-- A second concrete winner (entry `40`, exit `45`, quantity `2`,
net P&L `10`). -/
def c9winner2 : Trade :=
  { symbol := "MSFT", direction := .long, status := .sClosed,
    entry_time := 0, exit_time := some 120, entry_price := 40,
    exit_price := some 45, quantity := 2, commission := 0 }

/-- **C9, witness.** The amended characterization applied to a
concrete one-winner collection with `gross_loss = 0`. -/
theorem C9_profit_factor_characterization_witness :
    specGrossLoss [c9winner2] = 0 ∧ specGrossProfit [c9winner2] ≠ 0 ∧
      profit_factor [c9winner2] = ProfitFactor.infinite ∧
      svcProfitFactor [c9winner2] = none :=
  ⟨by decide, by decide,
    (C9_profit_factor_characterization [c9winner2]).2.2.1 (by decide) (by decide),
    (C9_profit_factor_characterization [c9winner2]).2.2.2 (by decide)⟩

/-! ## Generic CSV parser (`src/parsers/generic.py`)

Cells are embedded post-lexing: an `Option` value is a cell, `none`
being `NaN` (or an absent optional column).  A present-but-malformed
cell raises inside `_parse_decimal`/`_parse_datetime` in the source
and therefore produces a row error and no trade; such cells are not
representable here, which is sound for the per-trade claims. -/

/-- `_parse_decimal` at cell level (base.py lines 352-366). -/
def parseDecimalCell (v : Option ℚ) (allowNeg : Bool := true) : Except String ℚ :=
  match v with
  | none => .error "Empty numeric value"
  | some q => if !allowNeg && q < 0 then .error "Invalid number" else .ok q

/-- `_parse_datetime` at cell level (base.py lines 311-350). -/
def parseDatetimeCell (v : Option Int) : Except String Int :=
  match v with
  | none => .error "Empty datetime value"
  | some t => .ok t

structure GenericRow where
  symbol : String
  direction : Option String
  entry_time : Option Int
  entry_price : Option ℚ
  quantity : Option ℚ
  exit_time : Option Int
  exit_price : Option ℚ
  commission : Option ℚ
deriving DecidableEq, Repr

/-- `_is_empty_row` restricted to the generic row shape. -/
def genericRowEmpty (r : GenericRow) : Bool :=
  (pyStrip r.symbol).isEmpty && r.direction.isNone && r.entry_time.isNone &&
    r.entry_price.isNone && r.quantity.isNone && r.exit_time.isNone &&
    r.exit_price.isNone && r.commission.isNone

theorem mkTrade_fields {s d st et xt ep xp q c t}
    (h : mkTrade s d st et xt ep xp q c = some t) :
    t.direction = d ∧ t.status = st ∧ t.entry_time = et ∧
      t.exit_time = xt ∧ t.exit_price = xp := by
  unfold mkTrade at h
  split at h
  · cases h
    exact ⟨rfl, rfl, rfl, rfl, rfl⟩
  · cases h

/-- The final `return Trade(...)` of a row parser: pydantic
validation failure is a raised `ValidationError` (a `ValueError`),
surfaced as a row error by the loop. -/
def finishTrade (symbol : String) (d : TradeDirection) (st : TradeStatus)
    (et : Int) (xt : Option Int) (ep : ℚ) (xp : Option ℚ) (q c : ℚ) :
    Except String (Option Trade) :=
  match mkTrade symbol d st et xt ep xp q c with
  | some t => .ok (some t)
  | none => .error "Validation error for Trade"

theorem finishTrade_ok {symbol d st et xt ep xp q c t}
    (h : finishTrade symbol d st et xt ep xp q c = .ok (some t)) :
    t.status = st ∧ t.exit_time = xt ∧ t.entry_time = et ∧
      t.exit_price = xp ∧ validTrade t := by
  unfold finishTrade at h
  split at h
  · rename_i t' hmk
    cases h
    obtain ⟨_, h1, h2, h3, h4⟩ := mkTrade_fields hmk
    exact ⟨h1, h3, h2, h4, mkTrade_valid hmk⟩
  · exact Except.noConfusion h

/-- `GenericCSVParser._parse_row` (generic.py lines 96-173).  The
closed branch runs exactly when both the `exit_time` and `exit_price`
cells are non-`NaN`; the final `Trade(...)` call passes
`exit_price=Decimal(str(exit_price)) if exit_price else None`, so a
parsed exit price of `0` (falsy) is stored as `None` while the status
stays `closed`. -/
def genericParseRow (r : GenericRow) (_rowNum : ℕ) : Except String (Option Trade) :=
  if (pyStrip r.symbol).isEmpty then .error "Symbol is required"
  else
    match parseDirection r.direction with
    | .error e => .error e
    | .ok direction =>
      match parseDatetimeCell r.entry_time with
      | .error e => .error e
      | .ok entry_time =>
        match parseDecimalCell r.entry_price false with
        | .error e => .error e
        | .ok entry_price =>
          match parseDecimalCell r.quantity false with
          | .error e => .error e
          | .ok quantity =>
            if quantity ≤ 0 then .error "Quantity must be positive"
            else if entry_price ≤ 0 then .error "Entry price must be positive"
            else
              match r.exit_time, r.exit_price with
              | some xt, some xpCell =>
                match parseDecimalCell (some xpCell) false with
                | .error e => .error e
                | .ok exit_price =>
                  if xt < entry_time then
                    .error "Exit time cannot be before entry time"
                  else
                    finishTrade (pyStrip r.symbol) direction .sClosed entry_time
                      (some xt) entry_price
                      (if exit_price ≠ 0 then some exit_price else none)
                      quantity (r.commission.getD 0)
              | _, _ =>
                finishTrade (pyStrip r.symbol) direction .sOpen entry_time
                  none entry_price none quantity (r.commission.getD 0)

/-- `GenericCSVParser` end to end through the shared pipeline
(required columns present, `_normalize_dataframe` the identity). -/
def genericParse (rows : List GenericRow) : ParserResult :=
  parseDataframe genericParseRow genericRowEmpty [] id rows

/-! ## Claim C7 (closed-trade invariants) -/

/-- The generic row with `exit_price = 0` that defeats the claim. -/
def c7row : GenericRow :=
  { symbol := "AAPL", direction := some "long", entry_time := some 1000,
    entry_price := some 150, quantity := some 100,
    exit_time := some 2000, exit_price := some 0, commission := none }

/-- **C7, counterexample.** A generic row whose `exit_price` cell is
`0` produces a trade with `status = closed` and **no** `exit_price`
(the falsy `0` is stored as `None`), contradicting both
`status = closed ⇒ exit_price > 0` and `exit_price present iff
status ≠ open`. -/
theorem C7_closed_without_exit_price :
    (genericParse [c7row]).trades.map (fun t => (t.status, t.exit_price)) =
      [(TradeStatus.sClosed, none)] := by
  decide

/-- **C7, amended.** Every trade produced by the Generic CSV parser
satisfies: `exit_time` is present iff `status ≠ open`; if
`status = closed` then `exit_time ≥ entry_time`; and every *present*
`exit_price` is positive.  (A closed trade may lack `exit_price`
entirely — see the counterexample — and the NinjaTrader parser can
even emit closed trades without `exit_time` when the exit-time cell
fails to parse, so the claim's `closed ⇒ exit_time present` direction
does not extend beyond this parser.) -/
theorem C7_generic_exit_invariants (rows : List GenericRow) :
    ∀ t ∈ (genericParse rows).trades,
      (t.status ≠ TradeStatus.sOpen ↔ t.exit_time.isSome) ∧
      (t.status = TradeStatus.sClosed → ∀ xt ∈ t.exit_time, t.entry_time ≤ xt) ∧
      (∀ p ∈ t.exit_price, 0 < p) := by
  refine parseDataframe_trades_sound _ _ _ _ rows _ ?_
  intro r n t h
  unfold genericParseRow at h
  split at h <;> try exact Except.noConfusion h
  split at h <;> try exact Except.noConfusion h
  split at h <;> try exact Except.noConfusion h
  split at h <;> try exact Except.noConfusion h
  split at h <;> try exact Except.noConfusion h
  split at h <;> try exact Except.noConfusion h
  split at h <;> try exact Except.noConfusion h
  split at h
  · -- closed branch: both exit cells present
    split at h <;> try exact Except.noConfusion h
    split at h <;> try exact Except.noConfusion h
    obtain ⟨hst, hxty, hety, hxpy, hval⟩ := finishTrade_ok h
    refine ⟨?_, ?_, hval.2.2⟩
    · rw [hst, hxty]
      simp
    · intro _ x hx
      rw [hxty] at hx
      simp only [Option.mem_def, Option.some.injEq] at hx
      subst hx
      rw [hety]
      omega
  · -- open branch
    obtain ⟨hst, hxty, hety, hxpy, hval⟩ := finishTrade_ok h
    refine ⟨?_, ?_, hval.2.2⟩
    · rw [hst, hxty]
      simp
    · intro hcl
      rw [hst] at hcl
      cases hcl

/-- A well-formed closed generic row (exit price `152.30`). -/
def c7good : GenericRow :=
  { symbol := "AAPL", direction := some "long", entry_time := some 1000,
    entry_price := some (301/2), quantity := some 100,
    exit_time := some 2000, exit_price := some (1523/10), commission := some 2 }

/-- The trade `c7good` parses to. -/
def c7goodTrade : Trade :=
  { symbol := "AAPL", direction := .long, status := .sClosed,
    entry_time := 1000, exit_time := some 2000, entry_price := 301/2,
    exit_price := some (1523/10), quantity := 100, commission := 2 }

/-- **C7, witness.** The amended invariants applied to the concrete
trade produced from `c7good`, all hypotheses discharged there. -/
theorem C7_generic_exit_invariants_witness :
    (c7goodTrade.status ≠ TradeStatus.sOpen ↔ c7goodTrade.exit_time.isSome) ∧
      c7goodTrade.entry_time ≤ 2000 ∧ (0 : ℚ) < 1523/10 :=
  have h := C7_generic_exit_invariants [c7good] c7goodTrade (by decide)
  ⟨h.1, h.2.1 (by decide) 2000 (by decide), h.2.2 (1523/10) (by decide)⟩

/-! ## Interactive Brokers parser
(`src/parsers/interactive_brokers.py`)

`_normalize_dataframe` only strips embedded header rows from IB
exports; on data rows it is the identity, which is how it is embedded
here (the typed row model has no header-as-data rows). -/

structure IBRow where
  symbol : String
  quantity : Option ℚ
  direction : Option String
  price : Option ℚ
  time : Option Int
  commission : Option ℚ
  pnl : Option ℚ
deriving DecidableEq, Repr

/-- `symbol.split()[0]` on an already stripped, non-empty symbol:
keep the first whitespace-delimited token ("AAPL NASDAQ" → "AAPL"). -/
def firstToken (s : String) : String :=
  String.mk (s.toList.takeWhile (fun c => !c.isWhitespace))

def ibRowEmpty (r : IBRow) : Bool :=
  (pyStrip r.symbol).isEmpty && r.quantity.isNone && r.direction.isNone &&
    r.price.isNone && r.time.isNone && r.commission.isNone && r.pnl.isNone

/-- The direction resolution of `ibParseRow`: the textual field when
non-blank, else the sign of the quantity. -/
def ibDirection (dcell : Option String) (quantity0 : ℚ) :
    Except String TradeDirection :=
  match dcell with
  | some d =>
    if (pyStrip d).isEmpty then
      .ok (if 0 < quantity0 then TradeDirection.long else TradeDirection.short)
    else parseDirection (some d)
  | none =>
    .ok (if 0 < quantity0 then TradeDirection.long else TradeDirection.short)

/-- `InteractiveBrokersParser._parse_row` (interactive_brokers.py
lines 143-242): sign of the quantity implies the direction when the
textual field is blank; a non-zero `Realized P/L` makes the row a
closed round-trip whose entry price is back-solved
(long: `exit − P&L/qty`, short: `exit + P&L/qty`) and whose entry and
exit times are both the row's time. -/
def ibParseRow (r : IBRow) (_n : ℕ) : Except String (Option Trade) :=
  if (pyStrip r.symbol).isEmpty then .ok none
  else
    match parseDecimalCell r.quantity with
    | .error e => .error e
    | .ok quantity0 =>
      if quantity0 = 0 then .ok none
      else
        match ibDirection r.direction quantity0 with
        | .error e => .error e
        | .ok direction =>
          match parseDecimalCell r.price with
          | .error e => .error e
          | .ok price =>
            if price ≤ 0 then .error "Invalid price"
            else
              match r.time with
              | none => .error "Could not find date/time in row"
              | some trade_time =>
                let quantity := |quantity0|
                let commission : ℚ := |r.commission.getD 0|
                match r.pnl with
                | some pnl =>
                  if pnl ≠ 0 then
                    finishTrade (firstToken (pyStrip r.symbol)) direction .sClosed
                      trade_time (some trade_time)
                      (if direction = TradeDirection.long then price - pnl / quantity
                       else price + pnl / quantity)
                      (some price) quantity commission
                  else
                    finishTrade (firstToken (pyStrip r.symbol)) direction .sOpen
                      trade_time none price none quantity commission
                | none =>
                  finishTrade (firstToken (pyStrip r.symbol)) direction .sOpen
                    trade_time none price none quantity commission

/-- `InteractiveBrokersParser` end to end through the shared
pipeline. -/
def ibParse (rows : List IBRow) : ParserResult :=
  parseDataframe ibParseRow ibRowEmpty [] id rows

/-! ## Claim C4 (IB realized back-solve) -/

/-- The scenario row: quantity `-100`, price `152.30`, realized P&L
`180.00`, symbol `AAPL`, no textual direction. -/
def c4row : IBRow :=
  { symbol := "AAPL", quantity := some (-100), direction := none,
    price := some (1523/10), time := some 5000, commission := none,
    pnl := some 180 }

/-- The trade the source actually produces from `c4row`. -/
def c4trade : Trade :=
  { symbol := "AAPL", direction := .short, status := .sClosed,
    entry_time := 5000, exit_time := some 5000, entry_price := 1541/10,
    exit_price := some (1523/10), quantity := 100, commission := 0 }

/-- **C4, counterexample.** The claim (spec scenario 4) expects the
short entry price back-solved to `150.50`; the source back-solves a
short as `entry = exit + P&L/qty = 152.30 + 180/100 = 154.10` (the
spec's own §4.4 formula), not `150.50 = exit − P&L/qty` (the long
formula mis-applied by the scenario). -/
theorem C4_entry_price_is_15410_not_15050 :
    (ibParse [c4row]).trades.map (fun t => t.entry_price) = [1541/10] ∧
      (1541/10 : ℚ) ≠ 301/2 :=
  ⟨by decide, by decide⟩

/-- **C4, amended.** The row with quantity `-100`, price `152.30`,
realized P&L `180.00`, symbol `AAPL` produces exactly one closed
short trade with entry price back-solved to `154.10`
(short: `exit + P&L/qty`) and both entry and exit time set to the
row's time. -/
theorem C4_ib_realized_row :
    (ibParse [c4row]).trades = [c4trade] := by
  decide

/-! ## Binance parser (`src/parsers/binance.py`) -/

structure BinanceRow where
  symbol : String
  direction : Option String
  time : Option Int
  price : Option ℚ
  quantity : Option ℚ
  fee : Option ℚ
  pnl : Option ℚ
deriving DecidableEq, Repr

/-- `suffix` is a suffix of `s`. -/
def endsWithS (s suffix : String) : Bool :=
  suffix.toList.reverse.isPrefixOf s.toList.reverse

/-- Drop the last `n` characters. -/
def dropRightS (s : String) (n : ℕ) : String :=
  String.mk (s.toList.take (s.toList.length - n))

/-- The bounded quote-currency list of
`BinanceParser._normalize_symbol` (binance.py line 84), in source
order. -/
def quoteCurrencies : List String := ["USDT", "BUSD", "BTC", "ETH", "BNB", "USD", "USDC"]

/-- The quote-splitting loop of `_normalize_symbol` (binance.py lines
86-92): the first quote the symbol ends with, provided the symbol has
no `/` and at least two characters remain for the base, splits it
into `BASE/QUOTE`. -/
def binQuoteSplit : List String → String → Option String
  | [], _ => none
  | q :: qs, sym =>
    if endsWithS sym q && !infixOfS "/" sym &&
        decide (2 ≤ sym.toList.length - q.toList.length) then
      some (dropRightS sym q.toList.length ++ "/" ++ q)
    else binQuoteSplit qs sym

/-- `BinanceParser._normalize_symbol` (binance.py lines 77-92). -/
def binanceNormalizeSymbol (s : String) : String :=
  let sym := pyUpper (pyStrip s)
  match binQuoteSplit quoteCurrencies sym with
  | some split => split
  | none => sym

def binanceRowEmpty (r : BinanceRow) : Bool :=
  (pyStrip r.symbol).isEmpty && r.direction.isNone && r.time.isNone &&
    r.price.isNone && r.quantity.isNone && r.fee.isNone && r.pnl.isNone

/-- `BinanceParser._parse_row` (binance.py lines 125-211).  The `fee`
cell is embedded post regex-strip (`re.sub(r'[^0-9.\-]', '', ...)`),
as the numeric value it yields; a row with any parsed
`Realized Profit` is a closed trade via the IB-style back-solve,
otherwise an open fill. -/
def binanceParseRow (r : BinanceRow) (_n : ℕ) : Except String (Option Trade) :=
  if (binanceNormalizeSymbol r.symbol).isEmpty ||
      binanceNormalizeSymbol r.symbol = "/" then .error "Symbol is required"
  else
    match parseDirection r.direction with
    | .error e => .error e
    | .ok direction =>
      match r.time with
      | none => .error "Could not parse datetime"
      | some trade_time =>
        match parseDecimalCell r.price with
        | .error e => .error e
        | .ok price =>
          if price ≤ 0 then .error "Invalid price"
          else
            match parseDecimalCell r.quantity with
            | .error e => .error e
            | .ok quantity =>
              if quantity ≤ 0 then .error "Invalid quantity"
              else
                match r.pnl with
                | some pnl =>
                  finishTrade (binanceNormalizeSymbol r.symbol) direction
                    .sClosed trade_time (some trade_time)
                    (if direction = TradeDirection.long then price - pnl / quantity
                     else price + pnl / quantity)
                    (some price) quantity |r.fee.getD 0|
                | none =>
                  finishTrade (binanceNormalizeSymbol r.symbol) direction
                    .sOpen trade_time none price none quantity |r.fee.getD 0|

/-- `trade.entry_time.replace(second=0, microsecond=0)`: floor the
timestamp to the minute (binance.py line 252). -/
def minuteBucket (t : Int) : Int := t - t % 60

/-- The grouping key of `_aggregate_fills` (binance.py line 253). -/
def aggKey (t : Trade) : String :=
  t.symbol ++ "_" ++
    (match t.direction with | .long => "long" | .short => "short") ++ "_" ++
    toString (minuteBucket t.entry_time)

/-- Merging one further fill into the aggregated trade of its bucket
(binance.py lines 255-280): quantities add, the entry price becomes
the volume-weighted mean, the entry time stays the earliest,
commissions add. -/
def combineFills (existing tr : Trade) : Trade :=
  { symbol := existing.symbol, direction := existing.direction,
    status := existing.status, entry_time := existing.entry_time,
    exit_time := if existing.status = TradeStatus.sClosed
                 then some tr.entry_time else none,
    entry_price := (existing.entry_price * existing.quantity +
                    tr.entry_price * tr.quantity) /
                   (existing.quantity + tr.quantity),
    exit_price := existing.exit_price,
    quantity := existing.quantity + tr.quantity,
    commission := existing.commission + tr.commission }

/-- Ordered-dict insertion: an existing key keeps its position and
its value is merged, a new key is appended (Python `dict`
semantics). -/
def aggInsert (m : List (String × Trade)) (k : String) (tr : Trade) :
    List (String × Trade) :=
  match m with
  | [] => [(k, tr)]
  | (k', e) :: rest =>
    if k' = k then (k', combineFills e tr) :: rest
    else (k', e) :: aggInsert rest k tr

/-- `BinanceParser._aggregate_fills` (binance.py lines 237-284):
fold the time-sorted fills into the keyed buckets and return the
bucket values in key-insertion order. -/
def aggregate_fills (trades : List Trade) : List Trade :=
  ((sortByEntryTime trades).foldl (fun m tr => aggInsert m (aggKey tr) tr) []).map
    (fun p => p.2)

/-- The post-step of `BinanceParser._parse_dataframe` (binance.py
lines 295-306): replace the trades with their aggregation and append
the `"Aggregated N fills into M trades"` warning, `N` being
`parsed_successfully` and `M` the number of aggregated trades. -/
def binanceAggStep (aggregateFills : Bool) (result : ParserResult) : ParserResult :=
  if aggregateFills && !result.trades.isEmpty then
    { result with
      trades := aggregate_fills result.trades,
      warnings := result.warnings ++
        ["Aggregated " ++ toString result.parsed_successfully ++ " fills into " ++
          toString (aggregate_fills result.trades).length ++ " trades"] }
  else result

/-- `BinanceParser._parse_dataframe` (binance.py lines 286-307): the
shared pipeline, then the optional aggregation step. -/
def binanceParse (aggregateFills : Bool) (rows : List BinanceRow) : ParserResult :=
  binanceAggStep aggregateFills (parseDataframe binanceParseRow binanceRowEmpty [] id rows)

/-! ## Claim C5 (Binance fill aggregation) -/

/-- The four BTC/USDT long fills of spec scenario 3, at `10:00:15`,
`10:00:42`, `10:00:51`, `10:00:59` (seconds of day), prices
`40000, 40010, 40020, 40030`, quantities `0.1, 0.2, 0.3, 0.4`. -/
def c5rows : List BinanceRow :=
  [{ symbol := "BTCUSDT", direction := some "BUY", time := some 36015,
     price := some 40000, quantity := some (1/10), fee := none, pnl := none },
   { symbol := "BTCUSDT", direction := some "BUY", time := some 36042,
     price := some 40010, quantity := some (2/10), fee := none, pnl := none },
   { symbol := "BTCUSDT", direction := some "BUY", time := some 36051,
     price := some 40020, quantity := some (3/10), fee := none, pnl := none },
   { symbol := "BTCUSDT", direction := some "BUY", time := some 36059,
     price := some 40030, quantity := some (4/10), fee := none, pnl := none }]

/-- The single aggregated trade the scenario expects. -/
def c5trade : Trade :=
  { symbol := "BTC/USDT", direction := .long, status := .sOpen,
    entry_time := 36015, exit_time := none, entry_price := 40020,
    exit_price := none, quantity := 1, commission := 0 }

/-- **C5, confirmed.** With aggregation enabled the four fills
produce exactly one open trade with `quantity = 1`,
`entry_price = 40020` (exactly the volume-weighted mean of the fill
prices), `entry_time = 10:00:15`, and the warning
`"Aggregated 4 fills into 1 trades"` is appended. -/
theorem C5_binance_aggregation :
    (binanceParse true c5rows).trades = [c5trade] ∧
      (binanceParse true c5rows).warnings = ["Aggregated 4 fills into 1 trades"] ∧
      c5trade.entry_price =
        (40000 * (1/10) + 40010 * (2/10) + 40020 * (3/10) + 40030 * (4/10)) /
          (1/10 + 2/10 + 3/10 + 4/10) :=
  ⟨by decide, by decide, by decide⟩

/-! ## Tradovate Order History (`src/parsers/tradovate.py`)

`TradovateParser._parse_dataframe` dispatches to
`_parse_order_history` when the header carries `action`/`ordStatus`
columns; that path is embedded here.  It bypasses the shared row loop
entirely: it collects fills into a `(symbol, direction)`-keyed
insertion-ordered dict, pairs them per group, and returns without the
final sort, without touching `skipped_rows`, and counting emitted
*trades* (not rows) in `parsed_successfully`. -/

structure OHRow where
  symbol : Option String
  action : String
  quantity : Option ℚ
  price : Option ℚ
  time : Option Int
  commission : Option ℚ
deriving DecidableEq, Repr

structure Fill where
  time : Int
  price : ℚ
  quantity : ℚ
  commission : ℚ
  direction : TradeDirection
  symbol : String
deriving DecidableEq, Repr

/-- The futures month codes `F G H J K M N Q U V X Z`. -/
def monthCodes : List Char := ['F', 'G', 'H', 'J', 'K', 'M', 'N', 'Q', 'U', 'V', 'X', 'Z']

/-- `TradovateParser._normalize_symbol` (tradovate.py lines 80-96):
strip futures contract codes matching
`^([A-Z]{2,4})[FGHJKMNQUVXZ]\d{1,2}$` to the root.  The trailing
digit run is maximal and anchored, so the match decomposes uniquely
as root (2-4 uppercase letters), one month code, then 1-2 digits. -/
def tradovateNormalizeSymbol (s : String) : String :=
  let u := pyUpper (pyStrip s)
  let cs := u.toList
  let ds := (cs.reverse.takeWhile Char.isDigit).reverse
  let rest := (cs.reverse.dropWhile Char.isDigit).reverse
  if 1 ≤ ds.length ∧ ds.length ≤ 2 then
    match rest.getLast? with
    | some m =>
      if m ∈ monthCodes ∧ 2 ≤ rest.dropLast.length ∧ rest.dropLast.length ≤ 4 ∧
          rest.dropLast.all (fun c => 'A' ≤ c && c ≤ 'Z') then
        String.mk rest.dropLast
      else u
    | none => u
  else u

/-- One iteration of the fill-collection loop
(tradovate.py lines 284-326): `Except.ok none` is a silent
`continue`, `Except.error` a caught exception recorded under the row
number. -/
def ohProcessRow (r : OHRow) : Except String (Option Fill) :=
  match r.symbol with
  | none => .ok none
  | some symRaw =>
    match (if infixOfS "buy" (pyLower r.action) then some TradeDirection.long
           else if infixOfS "sell" (pyLower r.action) then some TradeDirection.short
           else none) with
    | none => .ok none
    | some direction =>
      match parseDecimalCell r.quantity with
      | .error e => .error e
      | .ok q0 =>
        match parseDecimalCell r.price with
        | .error e => .error e
        | .ok price =>
          if price ≤ 0 ∨ |q0| ≤ 0 then .ok none
          else
            match r.time with
            | none => .error "Could not parse datetime"
            | some tm =>
              .ok (some { time := tm, price := price, quantity := |q0|,
                          commission := r.commission.getD 0,
                          direction := direction,
                          symbol := tradovateNormalizeSymbol symRaw })

/-- `f"{symbol}_{direction}"` (tradovate.py line 313). -/
def ohKey (f : Fill) : String :=
  f.symbol ++ "_" ++ (match f.direction with | .long => "long" | .short => "short")

/-- Append a fill to its group, Python-dict insertion order
(tradovate.py lines 315-326). -/
def ohInsert (m : List (String × List Fill)) (k : String) (f : Fill) :
    List (String × List Fill) :=
  match m with
  | [] => [(k, [f])]
  | (k', fs) :: rest =>
    if k' = k then (k', fs ++ [f]) :: rest
    else (k', fs) :: ohInsert rest k f

/-- The fill-collection loop over all rows. -/
def ohCollect (rowNum : ℕ) (rows : List OHRow)
    (m : List (String × List Fill)) (errs : List ParserError) :
    List (String × List Fill) × List ParserError :=
  match rows with
  | [] => (m, errs)
  | r :: rs =>
    match ohProcessRow r with
    | .ok none => ohCollect (rowNum + 1) rs m errs
    | .ok (some f) => ohCollect (rowNum + 1) rs (ohInsert m (ohKey f) f) errs
    | .error e => ohCollect (rowNum + 1) rs m (errs ++ [⟨rowNum, e⟩])

def fillLE (a b : Fill) : Prop := a.time ≤ b.time

instance : DecidableRel fillLE := fun _ _ => Int.decLe _ _

instance : IsTotal Fill fillLE := ⟨fun _ _ => Int.le_total _ _⟩

instance : IsTrans Fill fillLE := ⟨fun _ _ _ => Int.le_trans⟩

/-- `fills.sort(key=lambda x: x["time"])` (tradovate.py line 351),
a stable sort by time. -/
def sortFillsByTime (fs : List Fill) : List Fill :=
  List.insertionSort fillLE fs

/-- The closed trade built from a paired entry/exit fill
(tradovate.py lines 358-370): entry quantity kept, commissions
summed across the pair. -/
def mkClosedOH (entry exitF : Fill) : Trade :=
  { symbol := entry.symbol, direction := entry.direction,
    status := .sClosed, entry_time := entry.time,
    exit_time := some exitF.time, entry_price := entry.price,
    exit_price := some exitF.price, quantity := entry.quantity,
    commission := entry.commission + exitF.commission }

/-- The open trade built from a lone fill (tradovate.py lines
334-347 and the unreachable lines 373-383). -/
def mkOpenOH (f : Fill) : Trade :=
  { symbol := f.symbol, direction := f.direction, status := .sOpen,
    entry_time := f.time, exit_time := none, entry_price := f.price,
    exit_price := none, quantity := f.quantity, commission := f.commission }

/-- The pairing loop `for i in range(0, len(fills) - 1, 2)`
(tradovate.py line 353): index `i` stops strictly below
`len(fills) - 1`, so `i + 1 < len(fills)` always holds, every
iteration emits a closed pair, and the `else` branch building an open
trade from a leftover fill (lines 372-383) is unreachable — an odd
group of three or more fills silently drops its last fill. -/
def pairFills : List Fill → List Trade
  | e :: x :: rest => mkClosedOH e x :: pairFills rest
  | _ => []

/-- Per-group trade construction (tradovate.py lines 332-386):
singleton groups become one open trade; larger groups are
time-sorted and paired in index order `(2k, 2k+1)`. -/
def ohGroupTrades (fills : List Fill) : List Trade :=
  if fills.length < 2 then
    match fills with
    | [] => []
    | f :: _ => [mkOpenOH f]
  else pairFills (sortFillsByTime fills)

/-- `TradovateParser._parse_order_history` (tradovate.py lines
258-388): no final sort, `skipped_rows` never incremented,
`parsed_successfully` counts emitted trades. -/
def tradovateOrderHistory (rows : List OHRow) : ParserResult :=
  let collected := ohCollect 2 rows [] []
  let trades := (collected.1.map (fun p => ohGroupTrades p.2)).flatten
  { trades := trades, errors := collected.2, warnings := [],
    total_rows := rows.length,
    parsed_successfully := trades.length, skipped_rows := 0 }

/-! ## Claim C1 (Order History pairing) -/

/-- Three buy fills of the same `(symbol, direction)` group, with
distinct times, prices and commissions. -/
def c1rows : List OHRow :=
  [{ symbol := some "ESZ5", action := "Buy", quantity := some 1,
     price := some 10, time := some 100, commission := some (1/2) },
   { symbol := some "ESZ5", action := "Buy", quantity := some 1,
     price := some 11, time := some 200, commission := some (1/4) },
   { symbol := some "ESZ5", action := "Buy", quantity := some 1,
     price := some 12, time := some 300, commission := some (1/8) }]

/-- **C1 (code bug).** On a `(symbol, direction)` group with three
fills, the Order History path emits exactly one trade: the closed
pair of the first two time-sorted fills, with their commissions
summed — and the leftover third fill yields **no** open trade, it is
silently dropped.  The claim (and the source's own unreachable
`else` branch at tradovate.py lines 372-383, which builds precisely
that open trade) expects the leftover to become an open trade; the
loop bound `range(0, len(fills) - 1, 2)` prevents it from ever
running. -/
theorem C1_leftover_fill_dropped :
    (tradovateOrderHistory c1rows).trades =
      [{ symbol := "ES", direction := .long, status := .sClosed,
         entry_time := 100, exit_time := some 200, entry_price := 10,
         exit_price := some 11, quantity := 1, commission := 3/4 }] ∧
      (tradovateOrderHistory c1rows).trades.countP
        (fun t => t.status = TradeStatus.sOpen) = 0 :=
  ⟨by decide, by decide⟩

/-! ## Claims C2 and C3, counterexamples on the Order History path -/

/-- Two single-fill groups whose first-seen order disagrees with
time order: an `NQ` buy at `10:05` before an `ES` buy at `10:00`. -/
def c2rows : List OHRow :=
  [{ symbol := some "NQ", action := "Buy", quantity := some 1,
     price := some 100, time := some 36300, commission := none },
   { symbol := some "ES", action := "Buy", quantity := some 1,
     price := some 200, time := some 36000, commission := none }]

/-- **C2, counterexample.** The Order History parse emits the groups
in dict-insertion order without a final sort: the returned trades
carry entry times `[10:05, 10:00]`, which is not non-decreasing, so
"every parse, by any parser, is sorted by entry_time" is false. -/
theorem C2_order_history_unsorted :
    (tradovateOrderHistory c2rows).trades.map (fun t => t.entry_time) =
        [36300, 36000] ∧
      ¬ List.Sorted entryLE (tradovateOrderHistory c2rows).trades :=
  ⟨by decide, by decide⟩

/-- Two buy fills of the same group, pairing into one closed
trade. -/
def c3rows : List OHRow :=
  [{ symbol := some "ES", action := "Buy", quantity := some 1,
     price := some 100, time := some 36000, commission := none },
   { symbol := some "ES", action := "Buy", quantity := some 1,
     price := some 101, time := some 36060, commission := none }]

/-- **C3, counterexample.** On the Order History path
`parsed_successfully` counts emitted trades, not source rows: two
rows pairing into one closed trade give
`parsed + skipped + |errors with row_number > 0| = 1 + 0 + 0 ≠ 2 =
total_rows`. -/
theorem C3_order_history_miscount :
    (tradovateOrderHistory c3rows).total_rows = 2 ∧
      (tradovateOrderHistory c3rows).parsed_successfully = 1 ∧
      (tradovateOrderHistory c3rows).skipped_rows = 0 ∧
      (tradovateOrderHistory c3rows).errors = [] ∧
      (1 : ℕ) + 0 + 0 ≠ 2 :=
  ⟨by decide, by decide, by decide, by decide, by decide⟩

/-! ## Claim C6 (direction normalization) -/

/-- **C6, counterexample.** The claim asserts that the shared
direction-normalization helper returns `short` for the input `"-1"`.
It does not: the long keyword list is tested first and the long
keyword `"1"` is a substring of `"-1"`, so `_parse_direction("-1")`
returns `long`. -/
theorem C6_minus_one_is_long_not_short :
    parseDirection (some "-1") = Except.ok TradeDirection.long ∧
      parseDirection (some "-1") ≠ Except.ok TradeDirection.short := by
  decide

/-- **C6, amended.** `_parse_direction` matches the canonical
keywords case-insensitively as substrings of the stripped input, long
keywords (`buy`, `long`, `b`, `1`, `call`) strictly before short
keywords (`sell`, `short`, `s`, `-1`, `put`, `ss`): any input
containing a long keyword normalizes to `long` — in particular
`"-1"`, which contains `"1"` — and only inputs free of long keywords
can normalize to `short`. -/
theorem C6_direction_first_match_wins (s : String) :
    (longKeywords.any (fun kw => infixOfS kw (pyLower (pyStrip s))) = true →
      parseDirection (some s) = Except.ok TradeDirection.long) ∧
    (longKeywords.any (fun kw => infixOfS kw (pyLower (pyStrip s))) = false →
      shortKeywords.any (fun kw => infixOfS kw (pyLower (pyStrip s))) = true →
      parseDirection (some s) = Except.ok TradeDirection.short) := by
  constructor
  · intro h
    simp [parseDirection, h]
  · intro h h'
    simp [parseDirection, h, h']

/-- **C6, witness.** The amended theorem applied at the concrete
inputs `"-1"` (long branch) and `"sell"` (short branch). -/
theorem C6_direction_first_match_wins_witness :
    parseDirection (some "-1") = Except.ok TradeDirection.long ∧
      parseDirection (some "sell") = Except.ok TradeDirection.short :=
  ⟨(C6_direction_first_match_wins "-1").1 (by decide),
    (C6_direction_first_match_wins "sell").2 (by decide) (by decide)⟩

/-! ## Claim C8 (decimal parsing) -/

/-- **C8, counterexample.** The claim asserts that for every numeric
string `s` the helper accepts, parsing `"(" ++ s ++ ")"` succeeds and
returns the negation.  It fails at `s = "150.50"`: the helper accepts
`"150.50"` (value `301/2`) but rejects `"(150.50)"` with an
invalid-number error, because `_parse_decimal` only removes `,` and
`$` and Python `float()` has no parenthesis syntax. -/
theorem C8_paren_not_negation :
    parseDecimalStr "150.50" = Except.ok (PyVal.fin (301 / 2)) ∧
      parseDecimalStr "(150.50)" = Except.error "Invalid number: (150.50)" := by
  decide

/-- **C8, amended.** `_parse_decimal` accepts strings with
leading/trailing whitespace, `$` sigils, `,` separators and a leading
minus (everything Python `float()` accepts after the removal), but
surrounding parentheses are *not* understood as negation: for every
string `s` and either `allow_negative` mode, parsing
`"(" ++ s ++ ")"` fails with the invalid-number error. -/
theorem C8_decimal_grammar :
    (∀ (s : String) (b : Bool),
      parseDecimalStr ("(" ++ s ++ ")") b =
        Except.error ("Invalid number: " ++ ("(" ++ s ++ ")"))) ∧
    parseDecimalStr " $1,234.56 " = Except.ok (PyVal.fin (30864 / 25)) ∧
    parseDecimalStr "-42" = Except.ok (PyVal.fin (-42)) ∧
    parseDecimalStr "abc" = Except.error "Invalid number: abc" :=
  ⟨fun s b => parseDecimalStr_paren s b, by decide, by decide, by decide⟩

/-! ## Claim C10 (price and quantity bounds)

Every `Trade(...)` construction in the embedded parsers either goes
through the validating constructor (`finishTrade`/`mkTrade`, the
pydantic `gt=0` fields) or is built from fills whose price and
quantity were checked positive before storage; the aggregation step
preserves the bounds. -/

theorem genericParseRow_valid (r : GenericRow) (n : ℕ) (t : Trade)
    (h : genericParseRow r n = .ok (some t)) : validTrade t := by
  unfold genericParseRow at h
  repeat' split at h
  all_goals
    first
    | exact (finishTrade_ok h).2.2.2.2
    | exact absurd h (by simp)

theorem ibParseRow_valid (r : IBRow) (n : ℕ) (t : Trade)
    (h : ibParseRow r n = .ok (some t)) : validTrade t := by
  unfold ibParseRow at h
  repeat' split at h
  all_goals
    first
    | exact (finishTrade_ok h).2.2.2.2
    | exact absurd h (by simp)

theorem binanceParseRow_valid (r : BinanceRow) (n : ℕ) (t : Trade)
    (h : binanceParseRow r n = .ok (some t)) : validTrade t := by
  unfold binanceParseRow at h
  repeat' split at h
  all_goals
    first
    | exact (finishTrade_ok h).2.2.2.2
    | exact absurd h (by simp)

theorem combineFills_valid {e tr : Trade} (he : validTrade e)
    (htr : validTrade tr) : validTrade (combineFills e tr) := by
  refine ⟨?_, ?_, ?_⟩
  · exact div_pos (add_pos (mul_pos he.1 he.2.1) (mul_pos htr.1 htr.2.1))
      (add_pos he.2.1 htr.2.1)
  · exact add_pos he.2.1 htr.2.1
  · exact he.2.2

theorem aggInsert_valid {m : List (String × Trade)} {k : String} {tr : Trade}
    (hm : ∀ p ∈ m, validTrade p.2) (htr : validTrade tr) :
    ∀ p ∈ aggInsert m k tr, validTrade p.2 := by
  induction m with
  | nil =>
    intro p hp
    simp only [aggInsert, List.mem_singleton] at hp
    subst hp
    exact htr
  | cons q rest ih =>
    intro p hp
    obtain ⟨k', e⟩ := q
    unfold aggInsert at hp
    split at hp
    · rcases List.mem_cons.mp hp with rfl | hp
      · exact combineFills_valid (hm ⟨k', e⟩ (by simp)) htr
      · exact hm p (List.mem_cons_of_mem _ hp)
    · rcases List.mem_cons.mp hp with rfl | hp
      · exact hm ⟨k', e⟩ (by simp)
      · exact ih (fun q hq => hm q (List.mem_cons_of_mem _ hq)) p hp

theorem foldl_aggInsert_valid :
    ∀ (ts : List Trade) (m : List (String × Trade)),
      (∀ t ∈ ts, validTrade t) → (∀ p ∈ m, validTrade p.2) →
      ∀ p ∈ ts.foldl (fun m tr => aggInsert m (aggKey tr) tr) m, validTrade p.2 := by
  intro ts
  induction ts with
  | nil => intro m _ hm p hp; exact hm p hp
  | cons tr rest ih =>
    intro m hts hm p hp
    simp only [List.foldl_cons] at hp
    exact ih _ (fun t ht => hts t (List.mem_cons_of_mem _ ht))
      (aggInsert_valid hm (hts tr (by simp))) p hp

theorem aggregate_fills_valid {ts : List Trade}
    (hts : ∀ t ∈ ts, validTrade t) :
    ∀ t ∈ aggregate_fills ts, validTrade t := by
  intro t ht
  unfold aggregate_fills at ht
  obtain ⟨p, hp, rfl⟩ := List.mem_map.mp ht
  refine foldl_aggInsert_valid (sortByEntryTime ts) [] ?_ (by simp) p hp
  intro t' ht'
  exact hts t' (mem_sortByEntryTime.mp ht')

theorem binanceAggStep_valid {agg : Bool} {result : ParserResult}
    (hres : ∀ t ∈ result.trades, validTrade t) :
    ∀ t ∈ (binanceAggStep agg result).trades, validTrade t := by
  intro t ht
  unfold binanceAggStep at ht
  split at ht
  · exact aggregate_fills_valid hres t ht
  · exact hres t ht

/-- The bound the Order History loop checks before storing a fill
(tradovate.py line 302). -/
def validFill (f : Fill) : Prop := 0 < f.price ∧ 0 < f.quantity

theorem ohProcessRow_valid {r : OHRow} {f : Fill}
    (h : ohProcessRow r = .ok (some f)) : validFill f := by
  unfold ohProcessRow at h
  repeat' split at h
  all_goals
    first
    | (rw [Except.ok.injEq, Option.some.injEq] at h
       subst h
       rename_i hbound _ _ _
       push_neg at hbound
       exact ⟨hbound.1, hbound.2⟩)
    | exact absurd h (by simp)

theorem ohInsert_fills {m : List (String × List Fill)} {k : String} {f : Fill}
    (hm : ∀ p ∈ m, ∀ g ∈ p.2, validFill g) (hf : validFill f) :
    ∀ p ∈ ohInsert m k f, ∀ g ∈ p.2, validFill g := by
  induction m with
  | nil =>
    intro p hp g hg
    simp only [ohInsert, List.mem_singleton] at hp
    subst hp
    simp only [List.mem_singleton] at hg
    subst hg
    exact hf
  | cons q rest ih =>
    intro p hp g hg
    obtain ⟨k', fs⟩ := q
    unfold ohInsert at hp
    split at hp
    · rcases List.mem_cons.mp hp with rfl | hp
      · rcases List.mem_append.mp hg with hg | hg
        · exact hm ⟨k', fs⟩ (by simp) g hg
        · simp only [List.mem_singleton] at hg
          subst hg
          exact hf
      · exact hm p (List.mem_cons_of_mem _ hp) g hg
    · rcases List.mem_cons.mp hp with rfl | hp
      · exact hm ⟨k', fs⟩ (by simp) g hg
      · exact ih (fun q hq => hm q (List.mem_cons_of_mem _ hq)) p hp g hg

theorem ohCollect_fills :
    ∀ (rows : List OHRow) (n : ℕ) (m : List (String × List Fill))
      (errs : List ParserError),
      (∀ p ∈ m, ∀ g ∈ p.2, validFill g) →
      ∀ p ∈ (ohCollect n rows m errs).1, ∀ g ∈ p.2, validFill g := by
  intro rows
  induction rows with
  | nil => intro n m errs hm p hp; exact hm p hp
  | cons r rest ih =>
    intro n m errs hm p hp
    unfold ohCollect at hp
    rcases hr : ohProcessRow r with e | of
    · rw [hr] at hp
      exact ih _ _ _ hm p hp
    · rcases of with _ | f
      · rw [hr] at hp
        exact ih _ _ _ hm p hp
      · rw [hr] at hp
        exact ih _ _ _ (ohInsert_fills hm (ohProcessRow_valid hr)) p hp

theorem mkClosedOH_valid {e x : Fill} (he : validFill e) (hx : validFill x) :
    validTrade (mkClosedOH e x) := by
  refine ⟨he.1, he.2, ?_⟩
  intro p hp
  simp only [mkClosedOH, Option.mem_def, Option.some.injEq] at hp
  subst hp
  exact hx.1

theorem mkOpenOH_valid {f : Fill} (hf : validFill f) :
    validTrade (mkOpenOH f) := by
  refine ⟨hf.1, hf.2, ?_⟩
  intro p hp
  simp [mkOpenOH] at hp

theorem pairFills_valid :
    ∀ (fs : List Fill), (∀ g ∈ fs, validFill g) →
      ∀ t ∈ pairFills fs, validTrade t
  | [], _, t, ht => by cases ht
  | [_], _, t, ht => by cases ht
  | e :: x :: rest, hva, t, ht => by
    simp only [pairFills, List.mem_cons] at ht
    rcases ht with rfl | ht
    · exact mkClosedOH_valid (hva e (by simp)) (hva x (by simp))
    · exact pairFills_valid rest
        (fun g hg => hva g (by simp [hg])) t ht

theorem ohGroupTrades_valid {fs : List Fill}
    (hfs : ∀ g ∈ fs, validFill g) :
    ∀ t ∈ ohGroupTrades fs, validTrade t := by
  intro t ht
  unfold ohGroupTrades at ht
  split at ht
  · rcases fs with _ | ⟨f, rest⟩
    · cases ht
    · simp only [List.mem_singleton] at ht
      subst ht
      exact mkOpenOH_valid (hfs f (by simp))
  · refine pairFills_valid _ ?_ t ht
    intro g hg
    exact hfs g ((List.perm_insertionSort fillLE fs).mem_iff.mp hg)

theorem tradovateOrderHistory_valid (rows : List OHRow) :
    ∀ t ∈ (tradovateOrderHistory rows).trades, validTrade t := by
  intro t ht
  unfold tradovateOrderHistory at ht
  simp only [List.mem_flatten, List.mem_map] at ht
  obtain ⟨l, ⟨p, hp, rfl⟩, htl⟩ := ht
  exact ohGroupTrades_valid
    (ohCollect_fills rows 2 [] [] (by simp) p hp) t htl

/-- An IB row whose back-solved entry price would be negative:
long, quantity `100`, price `1`, realized P&L `200`, so
`entry = 1 − 200/100 = −1`. -/
def c10badRow : IBRow :=
  { symbol := "AAPL", quantity := some 100, direction := none,
    price := some 1, time := some 0, commission := none, pnl := some 200 }

/-- **C10, confirmed.** Every trade in the collection returned by
any embedded parser — Generic, Interactive Brokers, Binance (with or
without fill aggregation) and the Tradovate Order History path — has
`entry_price > 0`, `quantity > 0` and, whenever `exit_price` is
present, `exit_price > 0`; and a source row whose parsed or
back-solved values would violate the bounds never yields a trade
(the pydantic `gt=0` validation raises, the loop records a row error
and drops the row, as the concrete bad IB row shows). -/
theorem C10_trade_bounds :
    (∀ rows, ∀ t ∈ (genericParse rows).trades, validTrade t) ∧
    (∀ rows, ∀ t ∈ (ibParse rows).trades, validTrade t) ∧
    (∀ (agg : Bool) rows, ∀ t ∈ (binanceParse agg rows).trades, validTrade t) ∧
    (∀ rows, ∀ t ∈ (tradovateOrderHistory rows).trades, validTrade t) ∧
    (ibParse [c10badRow]).trades = [] ∧
    (ibParse [c10badRow]).errors.length = 1 := by
  refine ⟨?_, ?_, ?_, tradovateOrderHistory_valid, by decide, by decide⟩
  · intro rows
    exact parseDataframe_trades_sound _ _ _ _ rows _ genericParseRow_valid
  · intro rows
    exact parseDataframe_trades_sound _ _ _ _ rows _ ibParseRow_valid
  · intro agg rows
    exact binanceAggStep_valid
      (parseDataframe_trades_sound _ _ _ _ rows _ binanceParseRow_valid)

/-- The trade `c10goodRow` parses to. -/
def c10goodTrade : Trade :=
  { symbol := "TSLA", direction := .long, status := .sOpen,
    entry_time := 10, exit_time := none, entry_price := 250,
    exit_price := none, quantity := 5, commission := 0 }

/-- A well-formed open generic row. -/
def c10goodRow : GenericRow :=
  { symbol := "TSLA", direction := some "buy", entry_time := some 10,
    entry_price := some 250, quantity := some 5, exit_time := none,
    exit_price := none, commission := none }

/-- **C10, witness.** The bounds applied to the concrete trade
produced from `c10goodRow`, the membership hypothesis discharged
there. -/
theorem C10_trade_bounds_witness :
    (0 : ℚ) < c10goodTrade.entry_price ∧ (0 : ℚ) < c10goodTrade.quantity :=
  have h := C10_trade_bounds.1 [c10goodRow] c10goodTrade (by decide)
  ⟨h.1, h.2.1⟩

end RatComputable

end AiTrade
